import Mathlib

/-!
Verification of the smc-python rule/engine/node core against its
natural-language specification.  The Python sources are shallowly
embedded: dictionaries (`self.data`) become association lists from
string keys to a JSON-like value type, methods become pure functions
on that state, and fallible paths (Python exceptions) become
`Option`/`Except` results.
-/

/-- Values stored in a Python dictionary in this code base: booleans,
strings, integers, or lists of href strings. -/
inductive PVal where
  | b (v : Bool)
  | s (v : String)
  | i (v : Int)
  | hrefs (v : List String)
deriving DecidableEq, Repr

/-- Model of a Python `dict` with string keys: an association list in
insertion order. -/
abbrev PyDict := List (String × PVal)

/-- Membership test, modelling `k in d` on a Python dict. -/
def pyMem (k : String) : PyDict → Bool
  | [] => false
  | p :: tl => p.1 == k || pyMem k tl

/-- Lookup, modelling `d.get(k)`: `none` when the key is absent. -/
def pyGet (k : String) : PyDict → Option PVal
  | [] => none
  | p :: tl => if p.1 == k then some p.2 else pyGet k tl

/-- Value replacement of an existing binding, keeping its position. -/
def pySetKnown (k : String) (v : PVal) : PyDict → PyDict
  | [] => []
  | p :: tl => (if p.1 == k then (k, v) else p) :: pySetKnown k v tl

/-- Assignment `d[k] = v`: replaces the value in place when the key is
present, otherwise appends the new binding (Python dicts keep
insertion order). -/
def pySet (k : String) (v : PVal) (d : PyDict) : PyDict :=
  if pyMem k d then pySetKnown k v d else d ++ [(k, v)]

/-- Python truthiness of an optional dict value (`None` is falsy, a
bool is itself, a string or list is truthy iff non-empty, an integer
is truthy iff non-zero). -/
def pyTruthy : Option PVal → Bool
  | none => false
  | some (.b v) => v
  | some (.s v) => v ≠ ""
  | some (.i v) => v ≠ 0
  | some (.hrefs v) => !v.isEmpty

/-- Argument accepted by `RuleElement.add`/`add_many`: either a raw
href string, or an Element.  An Element is represented by the outcome
of its `href` lookup (`smc.base.model.Element.href` is outside the
embedded sources): `some h` when the lookup yields href `h`, `none`
when it raises `ElementNotFound`. -/
inductive EntryArg where
  | element (href : Option String)
  | href (v : String)
deriving DecidableEq, Repr

/-- Model of `smc.base.model.Element.from_href` (outside the embedded
sources): wraps an href as a typed element reference. -/
structure ElementRef where
  href : String
deriving DecidableEq, Repr

/-- RuleElement.is_any: `'any' in self.data`. -/
def RuleElement.is_any (d : PyDict) : Bool :=
  pyMem "any" d

/-- RuleElement.is_none: `'none' in self.data`. -/
def RuleElement.is_none (d : PyDict) : Bool :=
  pyMem "none" d

/-- RuleElement.set_any: `self.data.clear()` followed by
`self.data.update(any=True)`. -/
def RuleElement.set_any (_d : PyDict) : PyDict :=
  [("any", PVal.b true)]

/-- RuleElement.set_none: `self.data.clear()` followed by
`self.data.update(none=True)`. -/
def RuleElement.set_none (_d : PyDict) : PyDict :=
  [("none", PVal.b true)]

/-- Shared first step of `add` and `add_many`: when `is_none` or
`is_any` holds, clear the dict and bind the `typeof` key to an empty
list. -/
def RuleElement.clearAnyNone (t : String) (d : PyDict) : PyDict :=
  if RuleElement.is_none d || RuleElement.is_any d then [(t, PVal.hrefs [])]
  else d

/-- Statement `self.data[t].append(x)`: fails (Python `KeyError` or
`AttributeError`) unless key `t` currently holds a list. -/
def RuleElement.listAppend (t : String) (x : String) (d : PyDict) : Option PyDict :=
  match pyGet t d with
  | some (.hrefs l) => some (pySet t (PVal.hrefs (l ++ [x])) d)
  | _ => none

/-- Loop body shared by `add` and `add_many`: append one entry, where
an Element whose href lookup raises `ElementNotFound` is caught and
skipped (`pass`/`continue`), while a missing or non-list `typeof` key
is an uncaught error. -/
def RuleElement.addOne (t : String) (a : EntryArg) (d : PyDict) : Option PyDict :=
  match a with
  | .element none =>
    match pyGet t d with
    | some (.hrefs _) => some d
    | _ => none
  | .element (some h) => RuleElement.listAppend t h d
  | .href v => RuleElement.listAppend t v d

/-- RuleElement.add: clear an active any/none marker, then append the
single entry. -/
def RuleElement.add (t : String) (a : EntryArg) (d : PyDict) : Option PyDict :=
  RuleElement.addOne t a (RuleElement.clearAnyNone t d)

/-- RuleElement.add_many: clear an active any/none marker, then append
each entry of the list in order. -/
def RuleElement.add_many (t : String) (args : List EntryArg) (d : PyDict) : Option PyDict :=
  args.foldlM (fun acc a => RuleElement.addOne t a acc) (RuleElement.clearAnyNone t d)

/-- RuleElement.all_as_href: the outer `Option` is the error channel
(`none` = uncaught `KeyError`); the inner `Option` is the Python
return value (`some none` models the implicit `return None` taken on
the any/none variants). -/
def RuleElement.all_as_href (t : String) (d : PyDict) : Option (Option (List String)) :=
  if !RuleElement.is_any d && !RuleElement.is_none d then
    match pyGet t d with
    | some (.hrefs l) => some (some l)
    | _ => none
  else some none

/-- RuleElement.all: resolves each stored href through
`Element.from_href`; returns `[]` on the any/none variants.  The
outer `Option` is the error channel. -/
def RuleElement.all (t : String) (d : PyDict) : Option (List ElementRef) :=
  if !RuleElement.is_any d && !RuleElement.is_none d then
    match pyGet t d with
    | some (.hrefs l) => some (l.map ElementRef.mk)
    | _ => none
  else some []

/-- Class attribute `Source.typeof`. -/
def Source.typeof : String := "src"

/-- Class attribute `Destination.typeof`. -/
def Destination.typeof : String := "dst"

/-- Class attribute `Service.typeof` (the rule-field Service class). -/
def Service.typeof : String := "service"

/-- Initial `data` of a fresh Source/Destination/Service constructed
with no argument: `{'none': True}`. -/
def RuleElement.initData : PyDict := [("none", PVal.b true)]

/-- Variant predicate: the field is in the `Any` variant (the `any`
marker is present and neither the `none` marker nor a reference list
coexists with it). -/
def AnyVariant (t : String) (d : PyDict) : Prop :=
  pyMem "any" d = true ∧ pyMem "none" d = false ∧ pyMem t d = false

/-- Variant predicate: the field is in the `None` variant. -/
def NoneVariant (t : String) (d : PyDict) : Prop :=
  pyMem "none" d = true ∧ pyMem "any" d = false ∧ pyMem t d = false

/-- Variant predicate: the field is in the `Enumerated` variant,
holding an ordered reference list under its `typeof` key with no
residual `any`/`none` marker. -/
def EnumVariant (t : String) (d : PyDict) : Prop :=
  pyMem "any" d = false ∧ pyMem "none" d = false ∧
    ∃ l : List String, pyGet t d = some (PVal.hrefs l)

/-- State invariant claimed by the specification: exactly one of the
three variants is active (the three predicates are pairwise exclusive
by construction). -/
def OneVariant (t : String) (d : PyDict) : Prop :=
  AnyVariant t d ∨ NoneVariant t d ∨ EnumVariant t d

/-- Reference list stored under the `typeof` key (empty when no list
is stored); used to phrase frame conditions. -/
def refList (t : String) (d : PyDict) : List String :=
  match pyGet t d with
  | some (.hrefs l) => l
  | _ => []

/-- Hrefs an `add_many` call actually appends: raw hrefs and resolved
element hrefs, in input order, with unresolvable elements dropped. -/
def resolvedHrefs (args : List EntryArg) : List String :=
  args.filterMap (fun a =>
    match a with
    | .element none => none
    | .element (some h) => some h
    | .href v => some v)

-- Dictionary lemmas

theorem pyMem_pySetKnown (k k' : String) (v : PVal) (d : PyDict) :
    pyMem k (pySetKnown k' v d) = pyMem k d := by
  induction d with
  | nil => rfl
  | cons p tl ih =>
    by_cases h : p.1 == k'
    · have hk : p.1 = k' := by simpa using h
      simp [pySetKnown, pyMem, h, hk, ih]
    · simp [pySetKnown, pyMem, h, ih]

theorem pyMem_append_single (k k' : String) (v : PVal) (d : PyDict) :
    pyMem k (d ++ [(k', v)]) = (pyMem k d || (k' == k)) := by
  induction d with
  | nil => simp [pyMem]
  | cons p tl ih => simp [pyMem, ih, Bool.or_assoc]

theorem pyMem_pySet (k k' : String) (v : PVal) (d : PyDict) :
    pyMem k (pySet k' v d) = (pyMem k d || (k' == k)) := by
  unfold pySet
  by_cases h : pyMem k' d
  · rw [if_pos h, pyMem_pySetKnown]
    by_cases he : k' == k
    · have : k' = k := by simpa using he
      subst this
      simp [h, he]
    · simp [he]
  · rw [if_neg h, pyMem_append_single]

theorem pyGet_pySetKnown_self (k : String) (v : PVal) (d : PyDict)
    (h : pyMem k d = true) : pyGet k (pySetKnown k v d) = some v := by
  induction d with
  | nil => simp [pyMem] at h
  | cons p tl ih =>
    by_cases hp : p.1 == k
    · simp [pySetKnown, pyGet, hp]
    · simp only [pyMem, hp, Bool.false_or] at h
      simp [pySetKnown, pyGet, hp, ih h]

theorem pyGet_append_single_absent (k k' : String) (v : PVal) (d : PyDict)
    (h : pyMem k d = false) :
    pyGet k (d ++ [(k', v)]) = if k' == k then some v else none := by
  induction d with
  | nil => simp [pyGet]
  | cons p tl ih =>
    simp only [pyMem, Bool.or_eq_false_iff] at h
    simp [pyGet, h.1, ih h.2]

theorem pyGet_pySet_self (k : String) (v : PVal) (d : PyDict) :
    pyGet k (pySet k v d) = some v := by
  unfold pySet
  by_cases h : pyMem k d
  · rw [if_pos h, pyGet_pySetKnown_self k v d h]
  · rw [if_neg h, pyGet_append_single_absent k k v d (by simpa using h)]
    simp

theorem pyGet_pySetKnown_ne (k k' : String) (v : PVal) (d : PyDict)
    (h : k' ≠ k) : pyGet k (pySetKnown k' v d) = pyGet k d := by
  induction d with
  | nil => rfl
  | cons p tl ih =>
    by_cases hp : p.1 == k'
    · have hk : p.1 = k' := by simpa using hp
      have : (k' == k) = false := by simpa using h
      simp [pySetKnown, pyGet, hp, hk, this, ih]
    · simp [pySetKnown, pyGet, hp, ih]

theorem pyGet_append_single_ne (k k' : String) (v : PVal) (d : PyDict)
    (h : k' ≠ k) : pyGet k (d ++ [(k', v)]) = pyGet k d := by
  induction d with
  | nil => simp [pyGet, show (k' == k) = false from by simpa using h]
  | cons p tl ih => simp [pyGet, ih]

theorem pyGet_pySet_ne (k k' : String) (v : PVal) (d : PyDict)
    (h : k' ≠ k) : pyGet k (pySet k' v d) = pyGet k d := by
  unfold pySet
  by_cases hm : pyMem k' d
  · rw [if_pos hm, pyGet_pySetKnown_ne k k' v d h]
  · rw [if_neg hm, pyGet_append_single_ne k k' v d h]

theorem pyMem_of_pyGet (k : String) (d : PyDict) (v : PVal)
    (h : pyGet k d = some v) : pyMem k d = true := by
  induction d with
  | nil => simp [pyGet] at h
  | cons p tl ih =>
    by_cases hp : p.1 == k
    · simp [pyMem, hp]
    · simp only [pyGet, hp, if_false] at h
      simp [pyMem, hp, ih h]

theorem pyGet_of_pyMem (k : String) (d : PyDict)
    (h : pyMem k d = true) : ∃ v, pyGet k d = some v := by
  induction d with
  | nil => simp [pyMem] at h
  | cons p tl ih =>
    by_cases hp : p.1 == k
    · exact ⟨p.2, by simp [pyGet, hp]⟩
    · simp only [pyMem, hp, Bool.false_or] at h
      simpa [pyGet, hp] using ih h

-- Rule-element variant lemmas

theorem enum_singleton (t : String) (hta : t ≠ "any") (htn : t ≠ "none")
    (l : List String) : EnumVariant t [(t, PVal.hrefs l)] := by
  refine ⟨?_, ?_, l, ?_⟩
  · simp [pyMem, show (t == "any") = false from by simpa using hta]
  · simp [pyMem, show (t == "none") = false from by simpa using htn]
  · simp [pyGet]

theorem enum_not_any_none (t : String) (d : PyDict) (h : EnumVariant t d) :
    RuleElement.is_any d = false ∧ RuleElement.is_none d = false :=
  ⟨h.1, h.2.1⟩

theorem clearAnyNone_of_enum (t : String) (d : PyDict) (h : EnumVariant t d) :
    RuleElement.clearAnyNone t d = d := by
  unfold RuleElement.clearAnyNone
  rw [if_neg]
  simp [RuleElement.is_any, RuleElement.is_none, h.1, h.2.1]

theorem clearAnyNone_enum (t : String) (hta : t ≠ "any") (htn : t ≠ "none")
    (d : PyDict) (h : OneVariant t d) :
    EnumVariant t (RuleElement.clearAnyNone t d) := by
  rcases h with h | h | h
  · unfold RuleElement.clearAnyNone
    rw [if_pos (by simp [RuleElement.is_any, h.1])]
    exact enum_singleton t hta htn []
  · unfold RuleElement.clearAnyNone
    rw [if_pos (by simp [RuleElement.is_none, h.1])]
    exact enum_singleton t hta htn []
  · rw [clearAnyNone_of_enum t d h]
    exact h

theorem refList_eq_of_pyGet (t : String) (d : PyDict) (l : List String)
    (h : pyGet t d = some (PVal.hrefs l)) : refList t d = l := by
  simp [refList, h]

theorem listAppend_enum (t : String) (hta : t ≠ "any") (htn : t ≠ "none")
    (x : String) (d : PyDict) (h : EnumVariant t d) :
    ∃ d', RuleElement.listAppend t x d = some d' ∧ EnumVariant t d' ∧
      refList t d' = refList t d ++ [x] := by
  obtain ⟨ha, hn, l, hl⟩ := h
  refine ⟨pySet t (PVal.hrefs (l ++ [x])) d, ?_, ⟨?_, ?_, l ++ [x], ?_⟩, ?_⟩
  · simp [RuleElement.listAppend, hl]
  · rw [pyMem_pySet]
    simp [ha, show (t == "any") = false from by simpa using hta]
  · rw [pyMem_pySet]
    simp [hn, show (t == "none") = false from by simpa using htn]
  · exact pyGet_pySet_self t (PVal.hrefs (l ++ [x])) d
  · rw [refList_eq_of_pyGet t d l hl,
      refList_eq_of_pyGet t _ (l ++ [x]) (pyGet_pySet_self t (PVal.hrefs (l ++ [x])) d)]

theorem addOne_enum (t : String) (hta : t ≠ "any") (htn : t ≠ "none")
    (a : EntryArg) (d : PyDict) (h : EnumVariant t d) :
    ∃ d', RuleElement.addOne t a d = some d' ∧ EnumVariant t d' ∧
      refList t d' = refList t d ++ resolvedHrefs [a] := by
  match a with
  | .element none =>
    obtain ⟨ha, hn, l, hl⟩ := h
    exact ⟨d, by simp [RuleElement.addOne, hl], ⟨ha, hn, l, hl⟩,
      by simp [resolvedHrefs]⟩
  | .element (some x) =>
    obtain ⟨d', h1, h2, h3⟩ := listAppend_enum t hta htn x d h
    exact ⟨d', h1, h2, by simpa [resolvedHrefs] using h3⟩
  | .href x =>
    obtain ⟨d', h1, h2, h3⟩ := listAppend_enum t hta htn x d h
    exact ⟨d', h1, h2, by simpa [resolvedHrefs] using h3⟩

theorem addLoop_enum (t : String) (hta : t ≠ "any") (htn : t ≠ "none")
    (args : List EntryArg) :
    ∀ d : PyDict, EnumVariant t d →
    ∃ d', List.foldlM (fun acc a => RuleElement.addOne t a acc) d args = some d' ∧
      EnumVariant t d' ∧ refList t d' = refList t d ++ resolvedHrefs args := by
  induction args with
  | nil =>
    intro d h
    exact ⟨d, by simp, h, by simp [resolvedHrefs]⟩
  | cons a tl ih =>
    intro d h
    obtain ⟨d1, h1, h2, h3⟩ := addOne_enum t hta htn a d h
    obtain ⟨d', h4, h5, h6⟩ := ih d1 h2
    refine ⟨d', ?_, h5, ?_⟩
    · simp [List.foldlM_cons, h1, h4]
    · rw [h6, h3, List.append_assoc]
      congr 1
      cases a with
      | element oh => cases oh <;> simp [resolvedHrefs, List.filterMap_cons]
      | href v => simp [resolvedHrefs, List.filterMap_cons]

theorem add_many_enum (t : String) (hta : t ≠ "any") (htn : t ≠ "none")
    (args : List EntryArg) (d : PyDict) (h : OneVariant t d) :
    ∃ d', RuleElement.add_many t args d = some d' ∧ EnumVariant t d' ∧
      refList t d' = refList t (RuleElement.clearAnyNone t d) ++ resolvedHrefs args :=
  addLoop_enum t hta htn args (RuleElement.clearAnyNone t d)
    (clearAnyNone_enum t hta htn d h)

theorem add_enum (t : String) (hta : t ≠ "any") (htn : t ≠ "none")
    (a : EntryArg) (d : PyDict) (h : OneVariant t d) :
    ∃ d', RuleElement.add t a d = some d' ∧ EnumVariant t d' ∧
      refList t d' = refList t (RuleElement.clearAnyNone t d) ++ resolvedHrefs [a] :=
  addOne_enum t hta htn a (RuleElement.clearAnyNone t d)
    (clearAnyNone_enum t hta htn d h)

theorem resolvedHrefs_map_href (hs : List String) :
    resolvedHrefs (hs.map EntryArg.href) = hs := by
  induction hs with
  | nil => rfl
  | cons x tl ih => simp [resolvedHrefs, List.filterMap_cons] at ih ⊢; exact ih

/-- C1: for Source, Destination and Service (whose `typeof` key is
distinct from the `any`/`none` markers), starting from any state with
exactly one active variant, each of `set_any`, `set_none`, `add` and
`add_many` leaves exactly one variant active; after `add` or
`add_many` the `any` and `none` markers are both absent, so no marker
coexists with the reference list. -/
theorem C1_one_variant_preserved (t : String) (d : PyDict)
    (hta : t ≠ "any") (htn : t ≠ "none") (h : OneVariant t d) :
    OneVariant t (RuleElement.set_any d) ∧
    OneVariant t (RuleElement.set_none d) ∧
    (∀ a, ∃ d', RuleElement.add t a d = some d' ∧ OneVariant t d' ∧
      pyMem "any" d' = false ∧ pyMem "none" d' = false) ∧
    (∀ args, ∃ d', RuleElement.add_many t args d = some d' ∧ OneVariant t d' ∧
      pyMem "any" d' = false ∧ pyMem "none" d' = false) := by
  refine ⟨Or.inl ⟨?_, ?_, ?_⟩, Or.inr (Or.inl ⟨?_, ?_, ?_⟩), ?_, ?_⟩
  · simp [RuleElement.set_any, pyMem]
  · simp [RuleElement.set_any, pyMem]
  · simp [RuleElement.set_any, pyMem]
    exact fun hc => hta hc.symm
  · simp [RuleElement.set_none, pyMem]
  · simp [RuleElement.set_none, pyMem]
  · simp [RuleElement.set_none, pyMem]
    exact fun hc => htn hc.symm
  · intro a
    obtain ⟨d', h1, h2, _⟩ := add_enum t hta htn a d h
    exact ⟨d', h1, Or.inr (Or.inr h2), h2.1, h2.2.1⟩
  · intro args
    obtain ⟨d', h1, h2, _⟩ := add_many_enum t hta htn args d h
    exact ⟨d', h1, Or.inr (Or.inr h2), h2.1, h2.2.1⟩

theorem C1_one_variant_preserved_witness :
    OneVariant "src" (RuleElement.set_any RuleElement.initData) ∧
    (∃ d', RuleElement.add "src" (EntryArg.href "h1") RuleElement.initData = some d' ∧
      OneVariant "src" d' ∧ pyMem "any" d' = false ∧ pyMem "none" d' = false) := by
  have h := C1_one_variant_preserved "src" RuleElement.initData
    (by decide) (by decide) (Or.inr (Or.inl ⟨by decide, by decide, by decide⟩))
  exact ⟨h.1, h.2.2.1 (EntryArg.href "h1")⟩

/-- C2: under the one-active-variant invariant, `is_any` holds iff the
`Any` variant is active; and from the `Any` variant, `add` with an
href argument moves the field to the `Enumerated` variant whose
reference list is exactly the one-element list containing that href,
after which `is_any` is false. -/
theorem C2_is_any_add (t : String) (d : PyDict)
    (hta : t ≠ "any") (htn : t ≠ "none") (h : OneVariant t d) :
    (RuleElement.is_any d = true ↔ AnyVariant t d) ∧
    (∀ ref, AnyVariant t d →
      ∃ d', RuleElement.add t (EntryArg.href ref) d = some d' ∧
        EnumVariant t d' ∧ refList t d' = [ref] ∧
        RuleElement.is_any d' = false) := by
  constructor
  · constructor
    · intro hy
      rcases h with h | h | h
      · exact h
      · rw [RuleElement.is_any, h.2.1] at hy; exact absurd hy (by simp)
      · rw [RuleElement.is_any, h.1] at hy; exact absurd hy (by simp)
    · intro hy
      rw [RuleElement.is_any, hy.1]
  · intro ref hy
    obtain ⟨d', h1, h2, h3⟩ := add_enum t hta htn (EntryArg.href ref) d h
    have hc : RuleElement.clearAnyNone t d = [(t, PVal.hrefs [])] := by
      unfold RuleElement.clearAnyNone
      rw [if_pos (by simp [RuleElement.is_any, hy.1])]
    refine ⟨d', h1, h2, ?_, h2.1⟩
    rw [h3, hc]
    simp [refList, pyGet, resolvedHrefs, List.filterMap_cons]

theorem C2_is_any_add_witness :
    RuleElement.is_any [("any", PVal.b true)] = true ∧
    (∃ d', RuleElement.add "src" (EntryArg.href "h9") [("any", PVal.b true)] = some d' ∧
      EnumVariant "src" d' ∧ refList "src" d' = ["h9"] ∧
      RuleElement.is_any d' = false) := by
  have hv : AnyVariant "src" [("any", PVal.b true)] :=
    ⟨by decide, by decide, by decide⟩
  have h := C2_is_any_add "src" [("any", PVal.b true)]
    (by decide) (by decide) (Or.inl hv)
  exact ⟨h.1.mpr hv, h.2 "h9" hv⟩

/-- C3: constructing a fresh Source, Destination or Service (initial
data `{'none': True}`), then calling `add_many` on a list of hrefs and
`all_as_href`, returns exactly the same list in the same order. -/
theorem C3_add_many_roundtrip (t : String)
    (ht : t = Source.typeof ∨ t = Destination.typeof ∨ t = Service.typeof)
    (hs : List String) :
    ∃ d', RuleElement.add_many t (hs.map EntryArg.href) RuleElement.initData = some d' ∧
      RuleElement.all_as_href t d' = some (some hs) := by
  have hta : t ≠ "any" := by rcases ht with h | h | h <;> (subst h; decide)
  have htn : t ≠ "none" := by rcases ht with h | h | h <;> (subst h; decide)
  have hinit : OneVariant t RuleElement.initData := by
    refine Or.inr (Or.inl ⟨by decide, by decide, ?_⟩)
    simp [pyMem, RuleElement.initData]
    exact fun hc => htn hc.symm
  obtain ⟨d', h1, h2, h3⟩ := add_many_enum t hta htn (hs.map EntryArg.href)
    RuleElement.initData hinit
  obtain ⟨ha, hn, l, hl⟩ := h2
  have hcl : RuleElement.clearAnyNone t RuleElement.initData = [(t, PVal.hrefs [])] := by
    unfold RuleElement.clearAnyNone
    rw [if_pos (by simp [RuleElement.is_none, RuleElement.initData, pyMem])]
  have hrl : refList t d' = hs := by
    rw [h3, hcl, resolvedHrefs_map_href]
    simp [refList, pyGet]
  have hls : l = hs := by
    rw [← hrl, refList_eq_of_pyGet t d' l hl]
  refine ⟨d', h1, ?_⟩
  simp [RuleElement.all_as_href, RuleElement.is_any, RuleElement.is_none, ha, hn, hl, hls]

theorem C3_add_many_roundtrip_witness :
    ∃ d', RuleElement.add_many "src"
        (["http://a/1", "http://a/2"].map EntryArg.href)
        RuleElement.initData = some d' ∧
      RuleElement.all_as_href "src" d' = some (some ["http://a/1", "http://a/2"]) :=
  C3_add_many_roundtrip "src" (Or.inl rfl) ["http://a/1", "http://a/2"]

/-- C5: an Element argument whose href lookup raises `ElementNotFound`
is silently skipped by `add` and `add_many`: no error is produced, the
reference list gains no entry for it, and `add_many` keeps appending
the resolvable entries of its input in order. -/
theorem C5_element_not_found_skipped (t : String) (d : PyDict)
    (hta : t ≠ "any") (htn : t ≠ "none") (h : OneVariant t d) :
    RuleElement.add t (EntryArg.element none) d =
      some (RuleElement.clearAnyNone t d) ∧
    (∀ args, ∃ d', RuleElement.add_many t args d = some d' ∧
      refList t d' = refList t (RuleElement.clearAnyNone t d) ++ resolvedHrefs args) := by
  constructor
  · obtain ⟨ha, hn, l, hl⟩ := clearAnyNone_enum t hta htn d h
    simp [RuleElement.add, RuleElement.addOne, hl]
  · intro args
    obtain ⟨d', h1, _, h3⟩ := add_many_enum t hta htn args d h
    exact ⟨d', h1, h3⟩

theorem C5_element_not_found_skipped_witness :
    RuleElement.add "src" (EntryArg.element none) [("src", PVal.hrefs ["x"])] =
      some [("src", PVal.hrefs ["x"])] ∧
    (∃ d', RuleElement.add_many "src"
        [EntryArg.element none, EntryArg.href "y", EntryArg.element (some "z")]
        [("src", PVal.hrefs ["x"])] = some d' ∧
      refList "src" d' = ["x", "y", "z"]) := by
  have h := C5_element_not_found_skipped "src" [("src", PVal.hrefs ["x"])]
    (by decide) (by decide)
    (Or.inr (Or.inr ⟨by decide, by decide, ["x"], by decide⟩))
  constructor
  · exact h.1.trans (by decide)
  · obtain ⟨d', h1, h2⟩ :=
      h.2 [EntryArg.element none, EntryArg.href "y", EntryArg.element (some "z")]
    exact ⟨d', h1, by rw [h2]; decide⟩

/-- C10: on the `Any` and `None` variants, `all` returns the empty
list while `all_as_href` returns Python `None`; on the `Enumerated`
variant both succeed and range over the same stored hrefs in the same
order (`all` resolving each href, `all_as_href` returning them raw). -/
theorem C10_all_vs_all_as_href (t : String) (d : PyDict) :
    ((AnyVariant t d ∨ NoneVariant t d) →
      RuleElement.all t d = some [] ∧ RuleElement.all_as_href t d = some none) ∧
    (∀ l, pyGet t d = some (PVal.hrefs l) →
      pyMem "any" d = false → pyMem "none" d = false →
      RuleElement.all t d = some (l.map ElementRef.mk) ∧
      RuleElement.all_as_href t d = some (some l)) := by
  constructor
  · intro hy
    rcases hy with hy | hy
    · constructor <;>
        simp [RuleElement.all, RuleElement.all_as_href,
          RuleElement.is_any, RuleElement.is_none, hy.1]
    · constructor <;>
        simp [RuleElement.all, RuleElement.all_as_href,
          RuleElement.is_any, RuleElement.is_none, hy.1]
  · intro l hl ha hn
    constructor <;>
      simp [RuleElement.all, RuleElement.all_as_href,
        RuleElement.is_any, RuleElement.is_none, ha, hn, hl]

theorem C10_all_vs_all_as_href_witness :
    RuleElement.all "src" [("any", PVal.b true)] = some [] ∧
    RuleElement.all_as_href "src" [("any", PVal.b true)] = some none ∧
    RuleElement.all "src" [("src", PVal.hrefs ["a"])] = some [ElementRef.mk "a"] ∧
    RuleElement.all_as_href "src" [("src", PVal.hrefs ["a"])] = some (some ["a"]) := by
  have h1 := (C10_all_vs_all_as_href "src" [("any", PVal.b true)]).1
    (Or.inl ⟨by decide, by decide, by decide⟩)
  have h2 := (C10_all_vs_all_as_href "src" [("src", PVal.hrefs ["a"])]).2
    ["a"] (by decide) (by decide) (by decide)
  exact ⟨h1.1, h1.2, by simpa using h2.1, h2.2⟩

-- Action and LogOptions setters (rule_elements.py)

/-- Allowed values of the Action.scan_detection setter. -/
def Action.scanDetectionAllowed : List String := ["on", "off", "undefined"]

/-- Action.action setter: assigns only when the value is among the
rule's available actions (`self._actions`, supplied at construction). -/
def Action.setAction (actions : List String) (value : String) (d : PyDict) : PyDict :=
  if actions.contains value then pySet "action" (PVal.s value) d else d

/-- Action.scan_detection setter: assigns only an allowed value. -/
def Action.setScanDetection (value : String) (d : PyDict) : PyDict :=
  if Action.scanDetectionAllowed.contains value then
    pySet "scan_detection" (PVal.s value) d
  else d

/-- Allowed values of the LogOptions.application_logging setter. -/
def LogOptions.applicationLoggingAllowed : List String := ["off", "default", "enforced"]

/-- LogOptions.application_logging setter. -/
def LogOptions.setApplicationLogging (value : String) (d : PyDict) : PyDict :=
  if LogOptions.applicationLoggingAllowed.contains value then
    pySet "application_logging" (PVal.s value) d
  else d

/-- Allowed values of the LogOptions.user_logging setter. -/
def LogOptions.userLoggingAllowed : List String := ["true", "false", "enforced"]

/-- LogOptions.user_logging setter. -/
def LogOptions.setUserLogging (value : String) (d : PyDict) : PyDict :=
  if LogOptions.userLoggingAllowed.contains value then
    pySet "user_logging" (PVal.s value) d
  else d

/-- Allowed values of the LogOptions.log_level setter. -/
def LogOptions.logLevelAllowed : List String :=
  ["none", "stored", "transient", "essential", "alert"]

/-- LogOptions.log_level setter: conditional assignment of the level,
followed by the unconditional fixup `if not
self.log_accounting_info_mode: self.log_accounting_info_mode = True`
(the property read is a truthiness test of `data.get(...)`). -/
def LogOptions.setLogLevel (value : String) (d : PyDict) : PyDict :=
  let d1 := if LogOptions.logLevelAllowed.contains value then
    pySet "log_level" (PVal.s value) d
  else d
  if pyTruthy (pyGet "log_accounting_info_mode" d1) then d1
  else pySet "log_accounting_info_mode" (PVal.b true) d1

/-- Default LogOptions data, from the constructor's `data=None` branch. -/
def LogOptions.initData : PyDict :=
  [("log_accounting_info_mode", PVal.b false),
   ("log_closing_mode", PVal.b true),
   ("log_level", PVal.s "undefined"),
   ("log_payload_additionnal", PVal.b false),
   ("log_payload_excerpt", PVal.b false),
   ("log_payload_record", PVal.b false),
   ("log_severity", PVal.i (-1))]

/-- C4 counterexample: assigning the out-of-range value `"bogus"` to
`log_level` on a default-constructed LogOptions is not a no-op — the
setter unconditionally forces `log_accounting_info_mode` to True, so
the data mapping changes. -/
theorem C4_counterexample :
    LogOptions.logLevelAllowed.contains "bogus" = false ∧
    LogOptions.setLogLevel "bogus" LogOptions.initData ≠ LogOptions.initData := by
  decide

/-- C4 amended: the Action.action, Action.scan_detection,
LogOptions.application_logging and LogOptions.user_logging setters
leave the entire data mapping unchanged on a value outside their
allowed set; the LogOptions.log_level setter on such a value skips the
level assignment but still sets `log_accounting_info_mode` to True
whenever that flag is not currently truthy (and only then). -/
theorem C4_invalid_setter_noop :
    (∀ acts v d, acts.contains v = false → Action.setAction acts v d = d) ∧
    (∀ v d, Action.scanDetectionAllowed.contains v = false →
      Action.setScanDetection v d = d) ∧
    (∀ v d, LogOptions.applicationLoggingAllowed.contains v = false →
      LogOptions.setApplicationLogging v d = d) ∧
    (∀ v d, LogOptions.userLoggingAllowed.contains v = false →
      LogOptions.setUserLogging v d = d) ∧
    (∀ v d, LogOptions.logLevelAllowed.contains v = false →
      LogOptions.setLogLevel v d =
        (if pyTruthy (pyGet "log_accounting_info_mode" d) then d
         else pySet "log_accounting_info_mode" (PVal.b true) d)) := by
  refine ⟨?_, ?_, ?_, ?_, ?_⟩
  · intro acts v d h
    have h' : v ∉ acts := by simpa using h
    simp [Action.setAction, h']
  · intro v d h
    have h' : v ∉ Action.scanDetectionAllowed := by simpa using h
    simp [Action.setScanDetection, h']
  · intro v d h
    have h' : v ∉ LogOptions.applicationLoggingAllowed := by simpa using h
    simp [LogOptions.setApplicationLogging, h']
  · intro v d h
    have h' : v ∉ LogOptions.userLoggingAllowed := by simpa using h
    simp [LogOptions.setUserLogging, h']
  · intro v d h
    have h' : v ∉ LogOptions.logLevelAllowed := by simpa using h
    simp [LogOptions.setLogLevel, h']

theorem C4_invalid_setter_noop_witness :
    Action.setAction ["allow", "discard"] "bogus" [("action", PVal.s "allow")] =
      [("action", PVal.s "allow")] ∧
    Action.setScanDetection "bogus" [("scan_detection", PVal.s "undefined")] =
      [("scan_detection", PVal.s "undefined")] ∧
    LogOptions.setApplicationLogging "bogus" LogOptions.initData = LogOptions.initData ∧
    LogOptions.setUserLogging "bogus" LogOptions.initData = LogOptions.initData ∧
    LogOptions.setLogLevel "bogus" LogOptions.initData =
      pySet "log_accounting_info_mode" (PVal.b true) LogOptions.initData := by
  have h := C4_invalid_setter_noop
  exact ⟨h.1 ["allow", "discard"] "bogus" _ (by decide),
    h.2.1 "bogus" _ (by decide),
    h.2.2.1 "bogus" _ (by decide),
    h.2.2.2.1 "bogus" _ (by decide),
    (h.2.2.2.2 "bogus" LogOptions.initData (by decide)).trans (by decide)⟩

-- Engine and Node accessors (engine.py, node.py)

/-- Exception kinds surfaced by the embedded engine/node accessors. -/
inductive SmcError where
  | resourceNotFound
  | unsupportedEngineFeature (msg : String)
  | licenseError
deriving DecidableEq, Repr

/-- Modelled from the spec: `SubElement._link` (smc.base.model, which
is outside the embedded sources) looks a relation up in the element's
`links` mapping and raises `ResourceNotFound` when the relation is
absent (spec sections 4.1 and 7). -/
def linkOf (links : List (String × String)) (rel : String) : Except SmcError String :=
  match links.find? (fun p => p.1 == rel) with
  | some p => .ok p.2
  | none => .error .resourceNotFound

/-- Resource store boundary: maps an href to the list-of-dict body a
GET on it returns (the `fetch` collaborator of spec section 6). -/
abbrev ResourceStore := String → List PyDict

/-- Modelled from the spec: `_get_resource_by_link` resolves the
relation through the links mapping and reads the resource at the
resulting href. -/
def get_resource_by_link (links : List (String × String)) (store : ResourceStore)
    (rel : String) : Except SmcError (List PyDict) :=
  match linkOf links rel with
  | .ok href => .ok (store href)
  | .error e => .error e

/-- Engine.internal_gateway: fetches the `internal_gateway` resource;
a non-empty result yields the gateway built from `result.pop()` (the
last entry), an empty result yields Python `None`, and an absent
relation is re-signalled as `UnsupportedEngineFeature` naming the
engine type. -/
def Engine.internal_gateway (etype : String) (links : List (String × String))
    (store : ResourceStore) : Except SmcError (Option PyDict) :=
  match get_resource_by_link links store "internal_gateway" with
  | .ok result =>
    match result.getLast? with
    | some m => .ok (some m)
    | none => .ok none
  | .error .resourceNotFound =>
    .error (.unsupportedEngineFeature
      ("This engine does not support an internal gateway for VPN, engine type: " ++ etype))
  | .error e => .error e

/-- C6: an Engine whose loaded representation has no
`internal_gateway` relation fails with `UnsupportedEngineFeature`
naming the engine type, and never with the generic
`ResourceNotFound`. -/
theorem C6_internal_gateway_unsupported (etype : String)
    (links : List (String × String)) (store : ResourceStore)
    (h : links.find? (fun p => p.1 == "internal_gateway") = none) :
    Engine.internal_gateway etype links store =
      Except.error (SmcError.unsupportedEngineFeature
        ("This engine does not support an internal gateway for VPN, engine type: "
          ++ etype)) ∧
    Engine.internal_gateway etype links store ≠
      Except.error SmcError.resourceNotFound := by
  have he : Engine.internal_gateway etype links store =
      Except.error (SmcError.unsupportedEngineFeature
        ("This engine does not support an internal gateway for VPN, engine type: "
          ++ etype)) := by
    simp [Engine.internal_gateway, get_resource_by_link, linkOf, h]
  exact ⟨he, by rw [he]; simp⟩

theorem C6_internal_gateway_unsupported_witness :
    Engine.internal_gateway "virtual_fw" [("nodes", "/n")] (fun _ => []) =
      Except.error (SmcError.unsupportedEngineFeature
        ("This engine does not support an internal gateway for VPN, engine type: "
          ++ "virtual_fw")) :=
  (C6_internal_gateway_unsupported "virtual_fw" [("nodes", "/n")] (fun _ => [])
    (by decide)).1

/-- Outcome of `prepared_request(ErrorClass, href=...).create()`: the
transport request either succeeds or raises the supplied error
class (the `fetch` boundary of spec section 6). -/
inductive ReqOutcome where
  | ok
  | fail
deriving DecidableEq, Repr

/-- Transport boundary for node commands: what the request on a given
href does. -/
abbrev Transport := String → ReqOutcome

/-- Node.fetch_license: request on the `fetch` link with `LicenseError`
as the error class, `except ResourceNotFound: pass`. -/
def Node.fetch_license (links : List (String × String)) (tr : Transport) :
    Except SmcError Unit :=
  match linkOf links "fetch" with
  | .error .resourceNotFound => .ok ()
  | .error e => .error e
  | .ok href =>
    match tr href with
    | .ok => .ok ()
    | .fail => .error .licenseError

/-- Node.bind_license: request on the `bind` link (the
`license_item_id` parameter is carried along but does not change the
control flow), `except ResourceNotFound: pass`. -/
def Node.bind_license (_license_item_id : Option String)
    (links : List (String × String)) (tr : Transport) : Except SmcError Unit :=
  match linkOf links "bind" with
  | .error .resourceNotFound => .ok ()
  | .error e => .error e
  | .ok href =>
    match tr href with
    | .ok => .ok ()
    | .fail => .error .licenseError

/-- Node.unbind_license: request on the `unbind` link,
`except ResourceNotFound: pass`. -/
def Node.unbind_license (links : List (String × String)) (tr : Transport) :
    Except SmcError Unit :=
  match linkOf links "unbind" with
  | .error .resourceNotFound => .ok ()
  | .error e => .error e
  | .ok href =>
    match tr href with
    | .ok => .ok ()
    | .fail => .error .licenseError

/-- Node.cancel_unbind_license: request on the `cancel_unbind` link,
`except ResourceNotFound: pass`. -/
def Node.cancel_unbind_license (links : List (String × String)) (tr : Transport) :
    Except SmcError Unit :=
  match linkOf links "cancel_unbind" with
  | .error .resourceNotFound => .ok ()
  | .error e => .error e
  | .ok href =>
    match tr href with
    | .ok => .ok ()
    | .fail => .error .licenseError

/-- C7 counterexample: on a node whose representation has no `fetch`
link (the link lookup raises `ResourceNotFound`), `fetch_license`
returns successfully (Python `None`) instead of surfacing any
not-found condition — the claim that license operations never return
silently when the link is absent is false. -/
theorem C7_counterexample :
    linkOf [] "fetch" = Except.error SmcError.resourceNotFound ∧
    Node.fetch_license [] (fun _ => ReqOutcome.ok) = Except.ok () := by
  constructor <;> rfl

/-- C7 amended: each node license operation catches the not-found
condition on its underlying link and returns silently as a no-op; only
when the link is present does it perform the request, propagating a
failing request as `LicenseError`. -/
theorem C7_license_silent_noop (links : List (String × String)) (tr : Transport) :
    (links.find? (fun p => p.1 == "fetch") = none →
      Node.fetch_license links tr = Except.ok ()) ∧
    (∀ lid, links.find? (fun p => p.1 == "bind") = none →
      Node.bind_license lid links tr = Except.ok ()) ∧
    (links.find? (fun p => p.1 == "unbind") = none →
      Node.unbind_license links tr = Except.ok ()) ∧
    (links.find? (fun p => p.1 == "cancel_unbind") = none →
      Node.cancel_unbind_license links tr = Except.ok ()) ∧
    (∀ p, links.find? (fun q => q.1 == "fetch") = some p → tr p.2 = ReqOutcome.fail →
      Node.fetch_license links tr = Except.error SmcError.licenseError) := by
  refine ⟨?_, ?_, ?_, ?_, ?_⟩
  · intro h
    simp [Node.fetch_license, linkOf, h]
  · intro lid h
    simp [Node.bind_license, linkOf, h]
  · intro h
    simp [Node.unbind_license, linkOf, h]
  · intro h
    simp [Node.cancel_unbind_license, linkOf, h]
  · intro p h hf
    simp [Node.fetch_license, linkOf, h, hf]

theorem C7_license_silent_noop_witness :
    Node.fetch_license [] (fun _ => ReqOutcome.ok) = Except.ok () ∧
    Node.bind_license (some "12345") [] (fun _ => ReqOutcome.ok) = Except.ok () ∧
    Node.unbind_license [] (fun _ => ReqOutcome.ok) = Except.ok () ∧
    Node.cancel_unbind_license [] (fun _ => ReqOutcome.ok) = Except.ok () ∧
    Node.fetch_license [("fetch", "/f")] (fun _ => ReqOutcome.fail) =
      Except.error SmcError.licenseError := by
  have h1 := C7_license_silent_noop [] (fun _ => ReqOutcome.ok)
  have h2 := C7_license_silent_noop [("fetch", "/f")] (fun _ => ReqOutcome.fail)
  exact ⟨h1.1 rfl, h1.2.1 (some "12345") rfl, h1.2.2.1 rfl, h1.2.2.2.1 rfl,
    h2.2.2.2.2 ("fetch", "/f") (by decide) rfl⟩

-- SMCElement.factory (element.py)

/-- Class attributes of `SMCElement` that `factory` writes. -/
structure SMCElementClassState where
  name : Option String
  href : Option String
  etag : Option String
  type : Option String
  json : Option PVal
  params : Option PVal
deriving DecidableEq, Repr

/-- Reference returned by `factory`: always the class object itself
(`return cls`), never a fresh instance. -/
inductive ClsRef where
  | cls
deriving DecidableEq, Repr

/-- SMCElement.factory: assigns each argument to the corresponding
attribute of the class object (`cls.name = name`, ...) and returns the
class; the state threaded through is the class attribute record. -/
def SMCElement.factory (name href etag _type : Option String)
    (json params : Option PVal) (_st : SMCElementClassState) :
    SMCElementClassState × ClsRef :=
  (⟨name, href, etag, _type, json, params⟩, ClsRef.cls)

/-- Attribute read through a reference returned by `factory`: the
reference is the class, so the read observes the current class
attribute record. -/
def ClsRef.read (_r : ClsRef) (st : SMCElementClassState) : SMCElementClassState := st

/-- C8: `factory` returns the class object itself rather than a fresh
instance, so after `factory(a)` followed by `factory(b)` the attribute
values observable through the first call's returned object are exactly
the arguments of the second call. -/
theorem C8_factory_mutates_class
    (n1 h1 e1 t1 : Option String) (j1 p1 : Option PVal)
    (n2 h2 e2 t2 : Option String) (j2 p2 : Option PVal)
    (s0 : SMCElementClassState) :
    (SMCElement.factory n1 h1 e1 t1 j1 p1 s0).2 = ClsRef.cls ∧
    (SMCElement.factory n2 h2 e2 t2 j2 p2
        (SMCElement.factory n1 h1 e1 t1 j1 p1 s0).1).2 =
      (SMCElement.factory n1 h1 e1 t1 j1 p1 s0).2 ∧
    ClsRef.read (SMCElement.factory n1 h1 e1 t1 j1 p1 s0).2
        (SMCElement.factory n2 h2 e2 t2 j2 p2
          (SMCElement.factory n1 h1 e1 t1 j1 p1 s0).1).1 =
      ⟨n2, h2, e2, t2, j2, p2⟩ :=
  ⟨rfl, rfl, rfl⟩

-- Policy.search_rule (policy.py)

/-- Meta entry of a `search_rule` response: the server-returned dict
whose `type` tag drives registry dispatch. -/
structure MetaEntry where
  type : Option String
  name : Option String
  href : Option String
deriving DecidableEq, Repr

/-- Rule element wrapper built by `search_rule`: the registry key the
entry was dispatched to (the registry itself,
`smc.base.resource.Registry`, is outside the embedded sources and is
modelled as key-indexed class selection) plus the wrapped meta. -/
structure WrappedRule where
  klazzKey : Option String
  meta : MetaEntry
deriving DecidableEq, Repr

/-- Dispatch of one response entry, from the `search_rule` loop body:
`ips_ethernet_rule` maps to the `ethernet_rule` class,
`ips_ipv4_access_rule` to the `layer2_ipv4_access_rule` class, and any
other tag indexes the registry directly. -/
def Policy.dispatchEntry (e : MetaEntry) : WrappedRule :=
  if e.type == some "ips_ethernet_rule" then ⟨some "ethernet_rule", e⟩
  else if e.type == some "ips_ipv4_access_rule" then ⟨some "layer2_ipv4_access_rule", e⟩
  else ⟨e.type, e⟩

/-- Policy.search_rule: a falsy response body (`None` or the empty
list) yields `[]`; otherwise the loop appends the first entry's
wrapped rule and the `return results` inside the loop body exits on
the first iteration. -/
def Policy.search_rule (json : Option (List MetaEntry)) : List WrappedRule :=
  match json with
  | some (e :: _) => [Policy.dispatchEntry e]
  | _ => []

/-- C9: `search_rule` returns at most one wrapped rule — exactly the
dispatched first entry when the response is non-empty (with the
`ips_ethernet_rule` and `ips_ipv4_access_rule` tags remapped), and the
empty list when the response body is empty. -/
theorem C9_search_rule_first_only :
    (Policy.search_rule none = [] ∧ Policy.search_rule (some []) = []) ∧
    (∀ e rest, (Policy.search_rule (some (e :: rest))).length = 1) ∧
    (∀ e rest, e.type = some "ips_ethernet_rule" →
      Policy.search_rule (some (e :: rest)) = [⟨some "ethernet_rule", e⟩]) ∧
    (∀ e rest, e.type = some "ips_ipv4_access_rule" →
      Policy.search_rule (some (e :: rest)) = [⟨some "layer2_ipv4_access_rule", e⟩]) ∧
    (∀ e rest, e.type ≠ some "ips_ethernet_rule" →
      e.type ≠ some "ips_ipv4_access_rule" →
      Policy.search_rule (some (e :: rest)) = [⟨e.type, e⟩]) := by
  refine ⟨⟨rfl, rfl⟩, ?_, ?_, ?_, ?_⟩
  · intro e rest
    simp [Policy.search_rule]
  · intro e rest h
    simp [Policy.search_rule, Policy.dispatchEntry, h]
  · intro e rest h
    simp [Policy.search_rule, Policy.dispatchEntry, h]
  · intro e rest h1 h2
    simp [Policy.search_rule, Policy.dispatchEntry, h1, h2]

theorem C9_search_rule_first_only_witness :
    Policy.search_rule (some [⟨some "ips_ethernet_rule", some "r1", some "/r/1"⟩,
        ⟨some "fw_ipv4_access_rule", some "r2", some "/r/2"⟩]) =
      [⟨some "ethernet_rule", ⟨some "ips_ethernet_rule", some "r1", some "/r/1"⟩⟩] ∧
    Policy.search_rule (some [⟨some "ips_ipv4_access_rule", none, none⟩]) =
      [⟨some "layer2_ipv4_access_rule", ⟨some "ips_ipv4_access_rule", none, none⟩⟩] ∧
    Policy.search_rule (some [⟨some "fw_ipv4_access_rule", none, none⟩]) =
      [⟨some "fw_ipv4_access_rule", ⟨some "fw_ipv4_access_rule", none, none⟩⟩] := by
  have h := C9_search_rule_first_only
  exact ⟨h.2.2.1 _ _ rfl, h.2.2.2.1 _ _ rfl,
    h.2.2.2.2 _ _ (by decide) (by decide)⟩
